import Mathlib

/-!
A shallow embedding in Lean 4 of `pywmm/coefficients.py`, the WMM
coefficient-file loader, together with theorems about its behaviour.

The Python function `read_coefficients(instance)` iterates over the lines
of a text file.  For each line it splits on whitespace and then:
  * one token          : `break` (end-of-data sentinel);
  * three tokens       : `instance.epoch = float(parts[0])`;
                         `instance.defaultDate = instance.epoch + 2.5`;
  * otherwise          : parse `n = int(parts[0])`, `m = int(parts[1])`,
                         `gnm = float(parts[2])`, `hnm = float(parts[3])`,
                         `dgnm = float(parts[4])`, `dhnm = float(parts[5])`;
                         if `m <= n` then
                           `instance.c[m][n] = gnm`; `instance.cd[m][n] = dgnm`;
                           if `m != 0` then
                             `instance.c[n][m-1] = hnm`; `instance.cd[n][m-1] = dhnm`.

Modelling choices:
  * A whitespace token is abstracted by the outcomes of applying Python's
    `int` and `float` conversions to it: `asInt`/`asFloat` are `none`
    exactly when the conversion would raise `ValueError`.  Python float
    values are modelled as exact rationals (the file format carries short
    decimal literals and the only arithmetic performed is `+ 2.5`).
  * Python lists are Lean lists; `xs[i]` and `xs[i] = v` use Python's
    indexing discipline (negative indices count from the end; an index out
    of range raises `IndexError`).
  * A raised exception is a `PyError` value; since the Python code mutates
    `instance` in place and propagates exceptions, the loop returns the
    instance state reached so far together with an optional error.
  * The file resource is abstracted by its content: a list of
    already-split lines (`List (List Token)`).
-/

/-- A Python exception relevant to this code: `ValueError` from a failed
`int`/`float` conversion, or `IndexError` from list indexing. -/
inductive PyError where
  | valueError : PyError
  | indexError : PyError
deriving DecidableEq, Repr

/-- A whitespace-delimited token of the coefficient file, abstracted by the
outcomes of Python's `int` and `float` conversions applied to it
(`none` means the conversion raises `ValueError`). -/
structure Token where
  asInt : Option Int
  asFloat : Option Rat
deriving DecidableEq, Repr

/-- A token whose text is a Python integer literal: both `int` and `float`
accept it. -/
def intTok (z : Int) : Token := ⟨some z, some (z : Rat)⟩

/-- A token whose text is a float literal that is not an integer literal
(like `"2020.0"`): `int` raises `ValueError`, `float` accepts it. -/
def floatTok (q : Rat) : Token := ⟨none, some q⟩

/-- A non-numeric token (like `"WMM-2020"`): both conversions raise. -/
def strTok : Token := ⟨none, none⟩

/-- The model instance mutated by the loader: epoch fields and the two
square coefficient arrays `c` and `cd` (rows of a Python list of lists). -/
structure WMMInstance where
  epoch : Rat
  defaultDate : Rat
  c : List (List Rat)
  cd : List (List Rat)
deriving DecidableEq, Repr

/-- Resolve a Python list index against a list length: non-negative
indices must be `< len`, negative indices count from the end; out-of-range
gives `none` (Python raises `IndexError`). -/
def pyIdx (len : Nat) (i : Int) : Option Nat :=
  if 0 ≤ i ∧ i < (len : Int) then some i.toNat
  else if -(len : Int) ≤ i ∧ i < 0 then some (i + len).toNat
  else none

/-- Python `xs[i]` read. -/
def pyGet {α : Type} (xs : List α) (i : Int) : Except PyError α :=
  match pyIdx xs.length i with
  | some k =>
    match xs[k]? with
    | some v => Except.ok v
    | none => Except.error PyError.indexError
  | none => Except.error PyError.indexError

/-- Python `xs[i] = v` write. -/
def pySet {α : Type} (xs : List α) (i : Int) (v : α) : Except PyError (List α) :=
  match pyIdx xs.length i with
  | some k => Except.ok (xs.set k v)
  | none => Except.error PyError.indexError

/-- Python `rows[i][j] = v`: read row `i` (may raise), assign slot `j` of
that row (may raise).  Because the row is shared between the outer list
and the local reference, the functional model stores the updated row back
at the same resolved index. -/
def pySet2 (rows : List (List Rat)) (i j : Int) (v : Rat) :
    Except PyError (List (List Rat)) := do
  let row ← pyGet rows i
  let row2 ← pySet row j v
  pySet rows i row2

/-- Read slot `(i, j)` of a list-of-lists with plain natural indices
(observation helper for stating theorems). -/
def readMat (rows : List (List Rat)) (i j : Nat) : Option Rat :=
  (rows[i]?).bind fun row => row[j]?

/-- Python `int(tok)`. -/
def tokInt (t : Token) : Except PyError Int :=
  match t.asInt with
  | some z => Except.ok z
  | none => Except.error PyError.valueError

/-- Python `float(tok)`. -/
def tokFloat (t : Token) : Except PyError Rat :=
  match t.asFloat with
  | some q => Except.ok q
  | none => Except.error PyError.valueError

/-- Outcome of processing one line of the file: continue with the updated
instance, `break` out of the loop, or propagate a raised exception (the
instance keeps every mutation made before the raise). -/
inductive StepResult where
  | next : WMMInstance → StepResult
  | halt : WMMInstance → StepResult
  | fail : WMMInstance → PyError → StepResult
deriving DecidableEq, Repr

/-- Parse the six fields of a coefficient record, in the evaluation order
of the source (`n`, `m`, `gnm`, `hnm`, `dgnm`, `dhnm`). -/
def parseRecord (parts : List Token) :
    Except PyError (Int × Int × Rat × Rat × Rat × Rat) := do
  let n ← tokInt (← pyGet parts 0)
  let m ← tokInt (← pyGet parts 1)
  let gnm ← tokFloat (← pyGet parts 2)
  let hnm ← tokFloat (← pyGet parts 3)
  let dgnm ← tokFloat (← pyGet parts 4)
  let dhnm ← tokFloat (← pyGet parts 5)
  pure (n, m, gnm, hnm, dgnm, dhnm)

/-- The four sequential array assignments of the coefficient branch,
performed on the instance in source order; a raise keeps the earlier
assignments. -/
def writeRecord (inst : WMMInstance) (n m : Int) (gnm hnm dgnm dhnm : Rat) :
    StepResult :=
  match pySet2 inst.c m n gnm with
  | Except.error e => StepResult.fail inst e
  | Except.ok c1 =>
    let inst1 : WMMInstance := { inst with c := c1 }
    match pySet2 inst1.cd m n dgnm with
    | Except.error e => StepResult.fail inst1 e
    | Except.ok cd1 =>
      let inst2 : WMMInstance := { inst1 with cd := cd1 }
      if m ≠ 0 then
        match pySet2 inst2.c n (m - 1) hnm with
        | Except.error e => StepResult.fail inst2 e
        | Except.ok c2 =>
          let inst3 : WMMInstance := { inst2 with c := c2 }
          match pySet2 inst3.cd n (m - 1) dhnm with
          | Except.error e => StepResult.fail inst3 e
          | Except.ok cd2 => StepResult.next { inst3 with cd := cd2 }
      else StepResult.next inst2

/-- One iteration of the loop body of `read_coefficients` on an
already-split line. -/
def processLine (inst : WMMInstance) (parts : List Token) : StepResult :=
  if parts.length = 1 then StepResult.halt inst
  else if parts.length = 3 then
    match (do tokFloat (← pyGet parts 0) : Except PyError Rat) with
    | Except.error e => StepResult.fail inst e
    | Except.ok ep =>
      StepResult.next { inst with epoch := ep, defaultDate := ep + 2.5 }
  else
    match parseRecord parts with
    | Except.error e => StepResult.fail inst e
    | Except.ok (n, m, gnm, hnm, dgnm, dhnm) =>
      if m ≤ n then writeRecord inst n m gnm hnm dgnm dhnm
      else StepResult.next inst

/-- The loop of `read_coefficients` over the file's lines: returns the
final instance state together with `some e` when an exception `e`
propagated out of the loop. -/
def processLines (inst : WMMInstance) : List (List Token) → WMMInstance × Option PyError
  | [] => (inst, none)
  | line :: rest =>
    match processLine inst line with
    | StepResult.halt i => (i, none)
    | StepResult.fail i e => (i, some e)
    | StepResult.next i => processLines i rest

/-- `read_coefficients`, with the opened file abstracted by its list of
already-split lines. -/
def read_coefficients (inst : WMMInstance) (fileLines : List (List Token)) :
    WMMInstance × Option PyError :=
  processLines inst fileLines

/-- The coefficient arrays are square of dimension `dim`. -/
def isSquare (rows : List (List Rat)) (dim : Nat) : Prop :=
  rows.length = dim ∧ ∀ r ∈ rows, r.length = dim

/-! ### Indexing lemmas -/

theorem bindOk {α β : Type} (a : α) (f : α → Except PyError β) :
    (Bind.bind (Except.ok a) f : Except PyError β) = f a := rfl

theorem bindErr {α β : Type} (e : PyError) (f : α → Except PyError β) :
    (Bind.bind (Except.error e) f : Except PyError β) = Except.error e := rfl

theorem pureOk {α : Type} (a : α) :
    (pure a : Except PyError α) = Except.ok a := rfl

theorem pyIdx_coe (len k : Nat) :
    pyIdx len (k : Int) = if k < len then some k else none := by
  unfold pyIdx
  by_cases h : k < len
  · have h1 : 0 ≤ (k : Int) ∧ (k : Int) < (len : Int) := by omega
    simp [h1, h]
  · have h1 : ¬ (0 ≤ (k : Int) ∧ (k : Int) < (len : Int)) := by omega
    have h2 : ¬ (-(len : Int) ≤ (k : Int) ∧ (k : Int) < 0) := by omega
    simp [h1, h2, h]

theorem pyGet_coe {α : Type} (xs : List α) (k : Nat) (hk : k < xs.length) :
    pyGet xs (k : Int) = Except.ok xs[k] := by
  unfold pyGet
  rw [pyIdx_coe]
  simp [hk, List.getElem?_eq_getElem hk]

theorem pySet_coe {α : Type} (xs : List α) (k : Nat) (v : α) (hk : k < xs.length) :
    pySet xs (k : Int) v = Except.ok (xs.set k v) := by
  unfold pySet
  rw [pyIdx_coe]
  simp [hk]

theorem pySet2_spec (rows : List (List Rat)) (dim i j : Nat) (v : Rat)
    (hsq : isSquare rows dim) (hi : i < dim) (hj : j < dim) :
    ∃ rows2, pySet2 rows (i : Int) (j : Int) v = Except.ok rows2 ∧
      isSquare rows2 dim ∧
      ∀ a b : Nat, readMat rows2 a b =
        if a = i ∧ b = j then some v else readMat rows a b := by
  obtain ⟨hlen, hrow⟩ := hsq
  have hi2 : i < rows.length := by omega
  have hrowlen : rows[i].length = dim := hrow _ (List.getElem_mem hi2)
  have hj2 : j < rows[i].length := by omega
  refine ⟨rows.set i (rows[i].set j v), ?_, ?_, ?_⟩
  · unfold pySet2
    rw [pyGet_coe rows i hi2, bindOk, pySet_coe _ j v hj2, bindOk,
        pySet_coe rows i _ hi2]
  · constructor
    · simp [hlen]
    · intro r hr
      rcases List.mem_or_eq_of_mem_set hr with h | h
      · exact hrow r h
      · subst h
        simp [hrowlen]
  · intro a b
    by_cases ha : a = i
    · subst ha
      have hset : (rows.set a (rows[a].set j v))[a]? = some (rows[a].set j v) :=
        List.getElem?_set_eq_of_lt _ hi2
      by_cases hb : b = j
      · subst hb
        simp only [readMat, hset, Option.some_bind, and_self, if_pos]
        exact List.getElem?_set_eq_of_lt v hj2
      · simp only [readMat, hset, Option.some_bind, hb, and_false, if_false]
        rw [List.getElem?_set_ne (fun h => hb h.symm),
            List.getElem?_eq_getElem hi2, Option.some_bind]
    · have hset : (rows.set i (rows[i].set j v))[a]? = rows[a]? :=
        List.getElem?_set_ne (fun h => ha h.symm)
      simp [readMat, hset, ha]

/-! ### Evaluation lemmas for record parsing -/

theorem tokIntEval (t : Token) (z : Int) (h : t.asInt = some z) :
    tokInt t = Except.ok z := by
  unfold tokInt
  rw [h]

theorem tokFloatEval (t : Token) (q : Rat) (h : t.asFloat = some q) :
    tokFloat t = Except.ok q := by
  unfold tokFloat
  rw [h]

theorem pyGetSix0 (t0 t1 t2 t3 t4 t5 : Token) :
    pyGet [t0, t1, t2, t3, t4, t5] 0 = Except.ok t0 := rfl

theorem pyGetSix1 (t0 t1 t2 t3 t4 t5 : Token) :
    pyGet [t0, t1, t2, t3, t4, t5] 1 = Except.ok t1 := rfl

theorem pyGetSix2 (t0 t1 t2 t3 t4 t5 : Token) :
    pyGet [t0, t1, t2, t3, t4, t5] 2 = Except.ok t2 := rfl

theorem pyGetSix3 (t0 t1 t2 t3 t4 t5 : Token) :
    pyGet [t0, t1, t2, t3, t4, t5] 3 = Except.ok t3 := rfl

theorem pyGetSix4 (t0 t1 t2 t3 t4 t5 : Token) :
    pyGet [t0, t1, t2, t3, t4, t5] 4 = Except.ok t4 := rfl

theorem pyGetSix5 (t0 t1 t2 t3 t4 t5 : Token) :
    pyGet [t0, t1, t2, t3, t4, t5] 5 = Except.ok t5 := rfl

theorem parseRecord_eval (t0 t1 t2 t3 t4 t5 : Token) (n m : Int)
    (g h dg dh : Rat)
    (h0 : t0.asInt = some n) (h1 : t1.asInt = some m)
    (h2 : t2.asFloat = some g) (h3 : t3.asFloat = some h)
    (h4 : t4.asFloat = some dg) (h5 : t5.asFloat = some dh) :
    parseRecord [t0, t1, t2, t3, t4, t5] = Except.ok (n, m, g, h, dg, dh) := by
  unfold parseRecord
  rw [pyGetSix0, bindOk, tokIntEval t0 n h0, bindOk,
      pyGetSix1, bindOk, tokIntEval t1 m h1, bindOk,
      pyGetSix2, bindOk, tokFloatEval t2 g h2, bindOk,
      pyGetSix3, bindOk, tokFloatEval t3 h h3, bindOk,
      pyGetSix4, bindOk, tokFloatEval t4 dg h4, bindOk,
      pyGetSix5, bindOk, tokFloatEval t5 dh h5, bindOk, pureOk]

theorem processLine_coeff (inst : WMMInstance) (t0 t1 t2 t3 t4 t5 : Token)
    (n m : Int) (g h dg dh : Rat)
    (h0 : t0.asInt = some n) (h1 : t1.asInt = some m)
    (h2 : t2.asFloat = some g) (h3 : t3.asFloat = some h)
    (h4 : t4.asFloat = some dg) (h5 : t5.asFloat = some dh) :
    processLine inst [t0, t1, t2, t3, t4, t5] =
      if m ≤ n then writeRecord inst n m g h dg dh
      else StepResult.next inst := by
  unfold processLine
  rw [parseRecord_eval t0 t1 t2 t3 t4 t5 n m g h dg dh h0 h1 h2 h3 h4 h5]
  norm_num

/-! ### Effect of the coefficient-branch writes -/

theorem writeRecord_spec (inst : WMMInstance) (dim : Nat) (n m : Int)
    (gnm hnm dgnm dhnm : Rat)
    (hc : isSquare inst.c dim) (hcd : isSquare inst.cd dim)
    (hm0 : 0 ≤ m) (hmn : m ≤ n) (hn : n < (dim : Int)) :
    ∃ inst2, writeRecord inst n m gnm hnm dgnm dhnm = StepResult.next inst2 ∧
      inst2.epoch = inst.epoch ∧ inst2.defaultDate = inst.defaultDate ∧
      isSquare inst2.c dim ∧ isSquare inst2.cd dim ∧
      (∀ a b : Nat, readMat inst2.c a b =
        if a = m.toNat ∧ b = n.toNat then some gnm
        else if m ≠ 0 ∧ a = n.toNat ∧ b = (m - 1).toNat then some hnm
        else readMat inst.c a b) ∧
      (∀ a b : Nat, readMat inst2.cd a b =
        if a = m.toNat ∧ b = n.toNat then some dgnm
        else if m ≠ 0 ∧ a = n.toNat ∧ b = (m - 1).toNat then some dhnm
        else readMat inst.cd a b) := by
  obtain ⟨mN, rfl⟩ := Int.eq_ofNat_of_zero_le hm0
  obtain ⟨nN, rfl⟩ := Int.eq_ofNat_of_zero_le (le_trans hm0 hmn)
  have hmnN : mN ≤ nN := by exact_mod_cast hmn
  have hnd : nN < dim := by exact_mod_cast hn
  have hmd : mN < dim := lt_of_le_of_lt hmnN hnd
  obtain ⟨c1, hc1eq, hc1sq, hc1read⟩ :=
    pySet2_spec inst.c dim mN nN gnm hc hmd hnd
  obtain ⟨cd1, hcd1eq, hcd1sq, hcd1read⟩ :=
    pySet2_spec inst.cd dim mN nN dgnm hcd hmd hnd
  by_cases hm : mN = 0
  · subst hm
    refine ⟨⟨inst.epoch, inst.defaultDate, c1, cd1⟩, ?_, rfl, rfl,
      hc1sq, hcd1sq, ?_, ?_⟩
    · unfold writeRecord
      simp only [hc1eq]
      simp only [hcd1eq]
      norm_num
    · intro a b
      rw [hc1read a b]
      norm_num
    · intro a b
      rw [hcd1read a b]
      norm_num
  · have hmz : ((mN : Int)) ≠ 0 := by exact_mod_cast hm
    have hco : ((mN : Int)) - 1 = ((mN - 1 : Nat) : Int) := by omega
    have hm1d : mN - 1 < dim := by omega
    obtain ⟨c2, hc2eq, hc2sq, hc2read⟩ :=
      pySet2_spec c1 dim nN (mN - 1) hnm hc1sq hnd hm1d
    obtain ⟨cd2, hcd2eq, hcd2sq, hcd2read⟩ :=
      pySet2_spec cd1 dim nN (mN - 1) dhnm hcd1sq hnd hm1d
    have ht : (((mN : Int)) - 1).toNat = mN - 1 := by omega
    refine ⟨⟨inst.epoch, inst.defaultDate, c2, cd2⟩, ?_, rfl, rfl,
      hc2sq, hcd2sq, ?_, ?_⟩
    · unfold writeRecord
      simp only [hc1eq]
      simp only [hcd1eq]
      rw [if_pos hmz, hco]
      simp only [hc2eq]
      simp only [hcd2eq]
    · intro a b
      rw [hc2read a b, hc1read a b]
      simp only [Int.toNat_natCast, ht, ne_eq, Int.natCast_eq_zero]
      split_ifs <;> first | rfl | omega
    · intro a b
      rw [hcd2read a b, hcd1read a b]
      simp only [Int.toNat_natCast, ht, ne_eq, Int.natCast_eq_zero]
      split_ifs <;> first | rfl | omega

/-! ### Header, sentinel and error-path lemmas -/

theorem processLine_sentinel (inst : WMMInstance) (t : Token) :
    processLine inst [t] = StepResult.halt inst := rfl

theorem processLine_header (inst : WMMInstance) (t0 t1 t2 : Token) (ep : Rat)
    (h0 : t0.asFloat = some ep) :
    processLine inst [t0, t1, t2] =
      StepResult.next { inst with epoch := ep, defaultDate := ep + 2.5 } := by
  unfold processLine
  rw [show pyGet [t0, t1, t2] (0 : Int) = Except.ok t0 from rfl, bindOk,
      tokFloatEval t0 ep h0]
  norm_num

theorem processLine_header_bad (inst : WMMInstance) (t0 t1 t2 : Token)
    (h0 : t0.asFloat = none) :
    processLine inst [t0, t1, t2] = StepResult.fail inst PyError.valueError := by
  unfold processLine
  rw [show pyGet [t0, t1, t2] (0 : Int) = Except.ok t0 from rfl, bindOk]
  unfold tokFloat
  rw [h0]
  norm_num

theorem pyGet_oob {α : Type} (xs : List α) (i : Int)
    (h : (xs.length : Int) ≤ i) :
    pyGet xs i = Except.error PyError.indexError := by
  unfold pyGet pyIdx
  have h1 : ¬ (0 ≤ i ∧ i < (xs.length : Int)) := by omega
  have h2 : ¬ (-(xs.length : Int) ≤ i ∧ i < 0) := by omega
  rw [if_neg h1, if_neg h2]

theorem isErr_bind {α β : Type} (x : Except PyError α)
    (f : α → Except PyError β) (hf : ∀ a, ∃ e, f a = Except.error e) :
    ∃ e, (Bind.bind x f : Except PyError β) = Except.error e := by
  cases x with
  | error e => exact ⟨e, rfl⟩
  | ok a => exact hf a

theorem parseRecord_short (parts : List Token) (h : parts.length < 6) :
    ∃ e, parseRecord parts = Except.error e := by
  have h5 : pyGet parts (5 : Int) = Except.error PyError.indexError := by
    apply pyGet_oob
    omega
  unfold parseRecord
  apply isErr_bind
  intro t0
  apply isErr_bind
  intro n
  apply isErr_bind
  intro t1
  apply isErr_bind
  intro m
  apply isErr_bind
  intro t2
  apply isErr_bind
  intro g
  apply isErr_bind
  intro t3
  apply isErr_bind
  intro hh
  apply isErr_bind
  intro t4
  apply isErr_bind
  intro dg
  exact ⟨PyError.indexError, by rw [h5, bindErr]⟩

theorem length_six_exists {α : Type} (l : List α) (h : l.length = 6) :
    ∃ a b c d e f, l = [a, b, c, d, e, f] := by
  obtain ⟨a, l1, rfl⟩ := List.exists_of_length_succ l h
  simp only [List.length_cons, Nat.succ.injEq] at h
  obtain ⟨b, l2, rfl⟩ := List.exists_of_length_succ l1 h
  simp only [List.length_cons, Nat.succ.injEq] at h
  obtain ⟨c, l3, rfl⟩ := List.exists_of_length_succ l2 h
  simp only [List.length_cons, Nat.succ.injEq] at h
  obtain ⟨d, l4, rfl⟩ := List.exists_of_length_succ l3 h
  simp only [List.length_cons, Nat.succ.injEq] at h
  obtain ⟨e, l5, rfl⟩ := List.exists_of_length_succ l4 h
  simp only [List.length_cons, Nat.succ.injEq] at h
  obtain ⟨f, l6, rfl⟩ := List.exists_of_length_succ l5 h
  simp only [List.length_cons, Nat.succ.injEq, List.length_eq_zero] at h
  exact ⟨a, b, c, d, e, f, by rw [h]⟩

theorem tokIntNone (t : Token) (h : t.asInt = none) :
    tokInt t = Except.error PyError.valueError := by
  unfold tokInt
  rw [h]

theorem tokFloatNone (t : Token) (h : t.asFloat = none) :
    tokFloat t = Except.error PyError.valueError := by
  unfold tokFloat
  rw [h]

theorem parseRecord_six_cases (t0 t1 t2 t3 t4 t5 : Token) :
    parseRecord [t0, t1, t2, t3, t4, t5] = Except.error PyError.valueError ∨
    ∃ n m g h dg dh, t0.asInt = some n ∧ t1.asInt = some m ∧
      t2.asFloat = some g ∧ t3.asFloat = some h ∧ t4.asFloat = some dg ∧
      t5.asFloat = some dh ∧
      parseRecord [t0, t1, t2, t3, t4, t5] = Except.ok (n, m, g, h, dg, dh) := by
  cases h0 : t0.asInt with
  | none =>
    left
    unfold parseRecord
    rw [pyGetSix0, bindOk, tokIntNone t0 h0, bindErr]
  | some n =>
    cases h1 : t1.asInt with
    | none =>
      left
      unfold parseRecord
      rw [pyGetSix0, bindOk, tokIntEval t0 n h0, bindOk,
          pyGetSix1, bindOk, tokIntNone t1 h1, bindErr]
    | some m =>
      cases h2 : t2.asFloat with
      | none =>
        left
        unfold parseRecord
        rw [pyGetSix0, bindOk, tokIntEval t0 n h0, bindOk,
            pyGetSix1, bindOk, tokIntEval t1 m h1, bindOk,
            pyGetSix2, bindOk, tokFloatNone t2 h2, bindErr]
      | some g =>
        cases h3 : t3.asFloat with
        | none =>
          left
          unfold parseRecord
          rw [pyGetSix0, bindOk, tokIntEval t0 n h0, bindOk,
              pyGetSix1, bindOk, tokIntEval t1 m h1, bindOk,
              pyGetSix2, bindOk, tokFloatEval t2 g h2, bindOk,
              pyGetSix3, bindOk, tokFloatNone t3 h3, bindErr]
        | some hv =>
          cases h4 : t4.asFloat with
          | none =>
            left
            unfold parseRecord
            rw [pyGetSix0, bindOk, tokIntEval t0 n h0, bindOk,
                pyGetSix1, bindOk, tokIntEval t1 m h1, bindOk,
                pyGetSix2, bindOk, tokFloatEval t2 g h2, bindOk,
                pyGetSix3, bindOk, tokFloatEval t3 hv h3, bindOk,
                pyGetSix4, bindOk, tokFloatNone t4 h4, bindErr]
          | some dg =>
            cases h5 : t5.asFloat with
            | none =>
              left
              unfold parseRecord
              rw [pyGetSix0, bindOk, tokIntEval t0 n h0, bindOk,
                  pyGetSix1, bindOk, tokIntEval t1 m h1, bindOk,
                  pyGetSix2, bindOk, tokFloatEval t2 g h2, bindOk,
                  pyGetSix3, bindOk, tokFloatEval t3 hv h3, bindOk,
                  pyGetSix4, bindOk, tokFloatEval t4 dg h4, bindOk,
                  pyGetSix5, bindOk, tokFloatNone t5 h5, bindErr]
            | some dh =>
              right
              exact ⟨n, m, g, hv, dg, dh, rfl, rfl, rfl, rfl, rfl, rfl,
                parseRecord_eval t0 t1 t2 t3 t4 t5 n m g hv dg dh
                  h0 h1 h2 h3 h4 h5⟩

theorem parseRecord_eq_of_take (parts : List Token) (h : 6 ≤ parts.length) :
    parseRecord (parts.take 6) = parseRecord parts := by
  have e : ∀ k : Nat, k < 6 → ∀ hk1 : k < (parts.take 6).length,
      ∀ hk2 : k < parts.length,
      pyGet (parts.take 6) (k : Int) = pyGet parts (k : Int) := by
    intro k hk hk1 hk2
    rw [pyGet_coe _ k hk1, pyGet_coe _ k hk2]
    congr 1
    exact List.getElem_take parts
  have hlt : (parts.take 6).length = 6 := by
    rw [List.length_take]
    omega
  have e0 := e 0 (by omega) (by omega) (by omega)
  have e1 := e 1 (by omega) (by omega) (by omega)
  have e2 := e 2 (by omega) (by omega) (by omega)
  have e3 := e 3 (by omega) (by omega) (by omega)
  have e4 := e 4 (by omega) (by omega) (by omega)
  have e5 := e 5 (by omega) (by omega) (by omega)
  norm_num at e0 e1 e2 e3 e4 e5
  unfold parseRecord
  rw [e0]
  simp only [e1, e2, e3, e4, e5]

theorem processLine_record_spec (inst : WMMInstance) (dim : Nat)
    (t0 t1 t2 t3 t4 t5 : Token) (n m : Int) (g h dg dh : Rat)
    (h0 : t0.asInt = some n) (h1 : t1.asInt = some m)
    (h2 : t2.asFloat = some g) (h3 : t3.asFloat = some h)
    (h4 : t4.asFloat = some dg) (h5 : t5.asFloat = some dh)
    (hc : isSquare inst.c dim) (hcd : isSquare inst.cd dim)
    (hm0 : 0 ≤ m) (hmn : m ≤ n) (hn : n < (dim : Int)) :
    ∃ inst2, processLine inst [t0, t1, t2, t3, t4, t5] = StepResult.next inst2 ∧
      inst2.epoch = inst.epoch ∧ inst2.defaultDate = inst.defaultDate ∧
      isSquare inst2.c dim ∧ isSquare inst2.cd dim ∧
      (∀ a b : Nat, readMat inst2.c a b =
        if a = m.toNat ∧ b = n.toNat then some g
        else if m ≠ 0 ∧ a = n.toNat ∧ b = (m - 1).toNat then some h
        else readMat inst.c a b) ∧
      (∀ a b : Nat, readMat inst2.cd a b =
        if a = m.toNat ∧ b = n.toNat then some dg
        else if m ≠ 0 ∧ a = n.toNat ∧ b = (m - 1).toNat then some dh
        else readMat inst.cd a b) := by
  obtain ⟨inst2, hw, hrest⟩ :=
    writeRecord_spec inst dim n m g h dg dh hc hcd hm0 hmn hn
  refine ⟨inst2, ?_, hrest⟩
  rw [processLine_coeff inst t0 t1 t2 t3 t4 t5 n m g h dg dh h0 h1 h2 h3 h4 h5,
      if_pos hmn, hw]

/-! ### The claims -/

/-- C1: for every line parsed as a coefficient record (six tokens: integers
`n`, `m` and floats `gnm`, `hnm`, `dgnm`, `dhnm`) with `m <= n`, processing
the line writes `c[m][n] = gnm` and `cd[m][n] = dgnm`, and additionally,
when `m != 0`, writes `c[n][m-1] = hnm` and `cd[n][m-1] = dhnm` (stated on
caller-pre-allocated square arrays large enough for the record, the spec's
§3 invariant). -/
theorem coeff_line_writes (inst : WMMInstance) (dim : Nat)
    (t0 t1 t2 t3 t4 t5 : Token) (n m : Int) (gnm hnm dgnm dhnm : Rat)
    (h0 : t0.asInt = some n) (h1 : t1.asInt = some m)
    (h2 : t2.asFloat = some gnm) (h3 : t3.asFloat = some hnm)
    (h4 : t4.asFloat = some dgnm) (h5 : t5.asFloat = some dhnm)
    (hc : isSquare inst.c dim) (hcd : isSquare inst.cd dim)
    (hm0 : 0 ≤ m) (hmn : m ≤ n) (hn : n < (dim : Int)) :
    ∃ inst2, processLine inst [t0, t1, t2, t3, t4, t5] = StepResult.next inst2 ∧
      readMat inst2.c m.toNat n.toNat = some gnm ∧
      readMat inst2.cd m.toNat n.toNat = some dgnm ∧
      (m ≠ 0 → readMat inst2.c n.toNat (m - 1).toNat = some hnm ∧
               readMat inst2.cd n.toNat (m - 1).toNat = some dhnm) := by
  obtain ⟨inst2, hpl, _, _, _, _, hcr, hcdr⟩ :=
    processLine_record_spec inst dim t0 t1 t2 t3 t4 t5 n m gnm hnm dgnm dhnm
      h0 h1 h2 h3 h4 h5 hc hcd hm0 hmn hn
  refine ⟨inst2, hpl, ?_, ?_, ?_⟩
  · rw [hcr]
    simp
  · rw [hcdr]
    simp
  · intro hm
    constructor
    · rw [hcr]
      split_ifs <;> first | rfl | (exfalso; omega)
    · rw [hcdr]
      split_ifs <;> first | rfl | (exfalso; omega)

/-- Witness for C1 at the spec's example line
`"1 1 -1450.7 4652.9 7.7 -25.1"` on a fresh 2-by-2 instance. -/
theorem coeff_line_writes_witness :
    ∃ inst2, processLine ⟨0, 0, [[0, 0], [0, 0]], [[0, 0], [0, 0]]⟩
        [intTok 1, intTok 1, floatTok (-1450.7), floatTok 4652.9,
         floatTok 7.7, floatTok (-25.1)] = StepResult.next inst2 ∧
      readMat inst2.c (1 : Int).toNat (1 : Int).toNat = some (-1450.7) ∧
      readMat inst2.cd (1 : Int).toNat (1 : Int).toNat = some 7.7 ∧
      ((1 : Int) ≠ 0 →
        readMat inst2.c (1 : Int).toNat ((1 : Int) - 1).toNat = some 4652.9 ∧
        readMat inst2.cd (1 : Int).toNat ((1 : Int) - 1).toNat = some (-25.1)) :=
  coeff_line_writes ⟨0, 0, [[0, 0], [0, 0]], [[0, 0], [0, 0]]⟩ 2
    (intTok 1) (intTok 1) (floatTok (-1450.7)) (floatTok 4652.9)
    (floatTok 7.7) (floatTok (-25.1)) 1 1 (-1450.7) 4652.9 7.7 (-25.1)
    rfl rfl rfl rfl rfl rfl ⟨rfl, by decide⟩ ⟨rfl, by decide⟩
    (by decide) (by decide) (by decide)

/-- C2: for every line that splits into exactly three whitespace tokens
whose first token parses as a float `ep`, processing the line sets `epoch`
to `ep` and `defaultDate` to `ep + 2.5`; the remaining two tokens (`t1`,
`t2`, arbitrary) have no effect on the instance. -/
theorem header_line_sets_epoch (inst : WMMInstance) (t0 t1 t2 : Token)
    (ep : Rat) (h0 : t0.asFloat = some ep) :
    processLine inst [t0, t1, t2] =
      StepResult.next { inst with epoch := ep, defaultDate := ep + 2.5 } :=
  processLine_header inst t0 t1 t2 ep h0

/-- Witness for C2 at the spec's example header
`"2020.0 WMM-2020 12/10/2019"`. -/
theorem header_line_sets_epoch_witness :
    processLine ⟨0, 0, [[0]], [[0]]⟩ [floatTok 2020, strTok, strTok] =
      StepResult.next ⟨2020, 2020 + 2.5, [[0]], [[0]]⟩ :=
  header_line_sets_epoch ⟨0, 0, [[0]], [[0]]⟩ (floatTok 2020) strTok strTok
    2020 rfl

/-- C4: for every six-token coefficient record with `m > n` (both parsed as
integers), processing the line returns the instance unchanged and raises no
error: the record is silently skipped. -/
theorem m_gt_n_record_skipped (inst : WMMInstance)
    (t0 t1 t2 t3 t4 t5 : Token) (n m : Int) (gnm hnm dgnm dhnm : Rat)
    (h0 : t0.asInt = some n) (h1 : t1.asInt = some m)
    (h2 : t2.asFloat = some gnm) (h3 : t3.asFloat = some hnm)
    (h4 : t4.asFloat = some dgnm) (h5 : t5.asFloat = some dhnm)
    (hgt : n < m) :
    processLine inst [t0, t1, t2, t3, t4, t5] = StepResult.next inst := by
  rw [processLine_coeff inst t0 t1 t2 t3 t4 t5 n m gnm hnm dgnm dhnm
      h0 h1 h2 h3 h4 h5, if_neg (by omega)]

/-- Witness for C4 at the spec's example `"2 3 ..."` (`m > n`). -/
theorem m_gt_n_record_skipped_witness :
    processLine ⟨0, 0, [[0, 0], [0, 0]], [[0, 0], [0, 0]]⟩
      [intTok 2, intTok 3, floatTok 1, floatTok 1, floatTok 1, floatTok 1] =
      StepResult.next ⟨0, 0, [[0, 0], [0, 0]], [[0, 0], [0, 0]]⟩ :=
  m_gt_n_record_skipped ⟨0, 0, [[0, 0], [0, 0]], [[0, 0], [0, 0]]⟩
    (intTok 2) (intTok 3) (floatTok 1) (floatTok 1) (floatTok 1) (floatTok 1)
    2 3 1 1 1 1 rfl rfl rfl rfl rfl rfl (by decide)

/-- C5: for every six-token coefficient record with `m == 0` (and `m <= n`),
processing the line performs no transposed write: `c[0][n]` and `cd[0][n]`
receive `gnm` and `dgnm`, every other slot of `c` and `cd` is unchanged,
and `epoch`/`defaultDate` are untouched. -/
theorem m_zero_no_transposed_write (inst : WMMInstance) (dim : Nat)
    (t0 t1 t2 t3 t4 t5 : Token) (n : Int) (gnm hnm dgnm dhnm : Rat)
    (h0 : t0.asInt = some n) (h1 : t1.asInt = some 0)
    (h2 : t2.asFloat = some gnm) (h3 : t3.asFloat = some hnm)
    (h4 : t4.asFloat = some dgnm) (h5 : t5.asFloat = some dhnm)
    (hc : isSquare inst.c dim) (hcd : isSquare inst.cd dim)
    (hn0 : 0 ≤ n) (hn : n < (dim : Int)) :
    ∃ inst2, processLine inst [t0, t1, t2, t3, t4, t5] = StepResult.next inst2 ∧
      inst2.epoch = inst.epoch ∧ inst2.defaultDate = inst.defaultDate ∧
      readMat inst2.c 0 n.toNat = some gnm ∧
      readMat inst2.cd 0 n.toNat = some dgnm ∧
      (∀ a b : Nat, ¬(a = 0 ∧ b = n.toNat) →
        readMat inst2.c a b = readMat inst.c a b ∧
        readMat inst2.cd a b = readMat inst.cd a b) := by
  obtain ⟨inst2, hpl, hep, hdd, _, _, hcr, hcdr⟩ :=
    processLine_record_spec inst dim t0 t1 t2 t3 t4 t5 n 0 gnm hnm dgnm dhnm
      h0 h1 h2 h3 h4 h5 hc hcd le_rfl hn0 hn
  refine ⟨inst2, hpl, hep, hdd, ?_, ?_, ?_⟩
  · rw [hcr]
    norm_num
  · rw [hcdr]
    norm_num
  · intro a b hab
    constructor
    · rw [hcr]
      split_ifs <;> first | rfl | (exfalso; omega)
    · rw [hcdr]
      split_ifs <;> first | rfl | (exfalso; omega)

/-- Witness for C5 at the spec's example line `"1 0 -29404.5 0.0 6.7 0.0"`. -/
theorem m_zero_no_transposed_write_witness :
    ∃ inst2, processLine ⟨0, 0, [[0, 0], [0, 0]], [[0, 0], [0, 0]]⟩
        [intTok 1, intTok 0, floatTok (-29404.5), floatTok 0,
         floatTok 6.7, floatTok 0] = StepResult.next inst2 ∧
      inst2.epoch = (⟨0, 0, [[0, 0], [0, 0]], [[0, 0], [0, 0]]⟩ : WMMInstance).epoch ∧
      inst2.defaultDate = (⟨0, 0, [[0, 0], [0, 0]], [[0, 0], [0, 0]]⟩ : WMMInstance).defaultDate ∧
      readMat inst2.c 0 (1 : Int).toNat = some (-29404.5) ∧
      readMat inst2.cd 0 (1 : Int).toNat = some 6.7 ∧
      (∀ a b : Nat, ¬(a = 0 ∧ b = (1 : Int).toNat) →
        readMat inst2.c a b =
          readMat (⟨0, 0, [[0, 0], [0, 0]], [[0, 0], [0, 0]]⟩ : WMMInstance).c a b ∧
        readMat inst2.cd a b =
          readMat (⟨0, 0, [[0, 0], [0, 0]], [[0, 0], [0, 0]]⟩ : WMMInstance).cd a b) :=
  m_zero_no_transposed_write ⟨0, 0, [[0, 0], [0, 0]], [[0, 0], [0, 0]]⟩ 2
    (intTok 1) (intTok 0) (floatTok (-29404.5)) (floatTok 0)
    (floatTok 6.7) (floatTok 0) 1 (-29404.5) 0 6.7 0
    rfl rfl rfl rfl rfl rfl ⟨rfl, by decide⟩ ⟨rfl, by decide⟩
    (by decide) (by decide)

/-- C3: a line that splits into exactly one token halts the loop at once:
lines after the first sentinel have no effect on the outcome, and
processing a file starting at a sentinel returns the instance exactly as it
was there, with no error. -/
theorem sentinel_stops_processing (inst : WMMInstance) (line : List Token)
    (pre post : List (List Token)) (hlen : line.length = 1) :
    processLines inst (pre ++ line :: post) =
      processLines inst (pre ++ [line]) ∧
    processLines inst (line :: post) = (inst, none) := by
  obtain ⟨t, rfl⟩ := List.length_eq_one.mp hlen
  constructor
  · induction pre generalizing inst with
    | nil =>
      simp only [List.nil_append]
      rw [show processLines inst ([t] :: post) = (inst, none) from by
            unfold processLines; rw [processLine_sentinel],
          show processLines inst [[t]] = (inst, none) from by
            unfold processLines; rw [processLine_sentinel]]
    | cons l ls ih =>
      simp only [List.cons_append]
      unfold processLines
      cases processLine inst l with
      | next i => exact ih i
      | halt i => rfl
      | fail i e => rfl
  · unfold processLines
    rw [processLine_sentinel]

/-- Witness for C3: a coefficient line placed after the sentinel is not
reflected in the result. -/
theorem sentinel_stops_processing_witness :
    processLines ⟨0, 0, [[0]], [[0]]⟩
        ([] ++ [strTok] ::
          [[intTok 0, intTok 0, floatTok 9, floatTok 9, floatTok 9, floatTok 9]]) =
      processLines ⟨0, 0, [[0]], [[0]]⟩ ([] ++ [[strTok]]) ∧
    processLines ⟨0, 0, [[0]], [[0]]⟩
        ([strTok] ::
          [[intTok 0, intTok 0, floatTok 9, floatTok 9, floatTok 9, floatTok 9]]) =
      (⟨0, 0, [[0]], [[0]]⟩, none) :=
  sentinel_stops_processing ⟨0, 0, [[0]], [[0]]⟩ [strTok] []
    [[intTok 0, intTok 0, floatTok 9, floatTok 9, floatTok 9, floatTok 9]] rfl

/-- C6: the loader is deterministic: running it on the same file contents
against two instances with identical `epoch`, `defaultDate`, `c` and `cd`
yields identical results (state and error alike). -/
theorem loader_deterministic (i1 i2 : WMMInstance)
    (fileLines : List (List Token))
    (he : i1.epoch = i2.epoch) (hd : i1.defaultDate = i2.defaultDate)
    (hc : i1.c = i2.c) (hcd : i1.cd = i2.cd) :
    read_coefficients i1 fileLines = read_coefficients i2 fileLines := by
  have h12 : i1 = i2 := by
    cases i1
    cases i2
    simp_all
  rw [h12]

/-- Witness for C6 on two identically initialized fresh instances and a
one-header file. -/
theorem loader_deterministic_witness :
    read_coefficients ⟨0, 0, [[0]], [[0]]⟩ [[floatTok 2020, strTok, strTok]] =
      read_coefficients ⟨0, 0, [[0]], [[0]]⟩ [[floatTok 2020, strTok, strTok]] :=
  loader_deterministic ⟨0, 0, [[0]], [[0]]⟩ ⟨0, 0, [[0]], [[0]]⟩
    [[floatTok 2020, strTok, strTok]] rfl rfl rfl rfl

/-- C7 (amended): lines with token count 0, 2, 4 or 5 take the
coefficient-record branch and raise (value-conversion or index error), with
the instance unmutated by the line; lines with seven or more tokens are
processed exactly like the line of their first six tokens, so an
all-numeric long line raises no error. -/
theorem nonstandard_token_count_behaviour (inst : WMMInstance)
    (parts : List Token)
    (hne1 : parts.length ≠ 1) (hne3 : parts.length ≠ 3) :
    (parts.length < 6 → ∃ e, processLine inst parts = StepResult.fail inst e) ∧
    (6 ≤ parts.length → processLine inst parts = processLine inst (parts.take 6)) := by
  constructor
  · intro hlt
    obtain ⟨e, he⟩ := parseRecord_short parts hlt
    refine ⟨e, ?_⟩
    unfold processLine
    rw [if_neg hne1, if_neg hne3, he]
  · intro hge
    have htl : (parts.take 6).length = 6 := by
      rw [List.length_take]
      omega
    unfold processLine
    rw [if_neg hne1, if_neg hne3,
        if_neg (show ¬(parts.take 6).length = 1 by omega),
        if_neg (show ¬(parts.take 6).length = 3 by omega),
        parseRecord_eq_of_take parts hge]

/-- Witness for the amended C7: an (all short) two-token line fails with the
instance unchanged, and a seven-token line equals its six-token prefix. -/
theorem nonstandard_token_count_behaviour_witness :
    (([strTok, strTok] : List Token).length < 6 →
      ∃ e, processLine ⟨0, 0, [[0]], [[0]]⟩ [strTok, strTok] =
        StepResult.fail ⟨0, 0, [[0]], [[0]]⟩ e) ∧
    (6 ≤ ([strTok, strTok] : List Token).length →
      processLine ⟨0, 0, [[0]], [[0]]⟩ [strTok, strTok] =
        processLine ⟨0, 0, [[0]], [[0]]⟩ ([strTok, strTok].take 6)) :=
  nonstandard_token_count_behaviour ⟨0, 0, [[0]], [[0]]⟩ [strTok, strTok]
    (by decide) (by decide)

/-- Counterexample to C7 as stated: this seven-token, all-numeric line
(token count not 1, 3 or 6) does not raise; it is processed as a
coefficient record from its first six tokens. -/
theorem seven_token_line_no_error :
    ([intTok 1, intTok 0, floatTok 2, floatTok 3, floatTok 4, floatTok 5,
        floatTok 9] : List Token).length = 7 ∧
    processLine ⟨0, 0, [[0, 0], [0, 0]], [[0, 0], [0, 0]]⟩
        [intTok 1, intTok 0, floatTok 2, floatTok 3, floatTok 4, floatTok 5,
         floatTok 9] =
      StepResult.next ⟨0, 0, [[0, 2], [0, 0]], [[0, 4], [0, 0]]⟩ :=
  ⟨rfl, rfl⟩

/-- C8: the load is not atomic on error: on this two-line file the loader
raises a value-conversion error on the second line after the first line has
already set `epoch` and `defaultDate`, so the error propagates alongside a
partially populated instance. -/
theorem load_not_atomic_on_error :
    read_coefficients ⟨0, 0, [[0]], [[0]]⟩
        [[floatTok 2020, strTok, strTok], [strTok, strTok, strTok]] =
      (⟨2020, 2020 + 2.5, [[0]], [[0]]⟩, some PyError.valueError) ∧
    (⟨2020, 2020 + 2.5, [[0]], [[0]]⟩ : WMMInstance).epoch ≠
      (⟨0, 0, [[0]], [[0]]⟩ : WMMInstance).epoch := by
  have h1 : processLine ⟨0, 0, [[0]], [[0]]⟩ [floatTok 2020, strTok, strTok] =
      StepResult.next ⟨2020, 2020 + 2.5, [[0]], [[0]]⟩ :=
    processLine_header ⟨0, 0, [[0]], [[0]]⟩ (floatTok 2020) strTok strTok
      2020 rfl
  have h2 : processLine ⟨2020, 2020 + 2.5, [[0]], [[0]]⟩
      [strTok, strTok, strTok] =
      StepResult.fail ⟨2020, 2020 + 2.5, [[0]], [[0]]⟩ PyError.valueError :=
    processLine_header_bad ⟨2020, 2020 + 2.5, [[0]], [[0]]⟩
      strTok strTok strTok rfl
  constructor
  · simp only [read_coefficients, processLines, h1, h2]
  · show (2020 : Rat) ≠ 0
    norm_num

theorem processLine_six_err (inst : WMMInstance) (t0 t1 t2 t3 t4 t5 : Token)
    (e : PyError) (he : parseRecord [t0, t1, t2, t3, t4, t5] = Except.error e) :
    processLine inst [t0, t1, t2, t3, t4, t5] = StepResult.fail inst e := by
  unfold processLine
  rw [he]
  norm_num

/-- A line conforming to the file schema for arrays of dimension `dim`:
a sentinel, a header, or a six-token record whose parsed `(n, m)` indices
(if they parse and pass the `m <= n` guard) satisfy `0 <= m` and `n < dim`
(the spec's §3 invariant: arrays pre-allocated large enough for the file's
maximum indices). -/
def lineOk (dim : Nat) (parts : List Token) : Prop :=
  parts.length = 1 ∨ parts.length = 3 ∨
    (parts.length = 6 ∧
      ∀ n m : Int, (parts[0]?.bind Token.asInt) = some n →
        (parts[1]?.bind Token.asInt) = some m → m ≤ n →
        0 ≤ m ∧ n < (dim : Int))

theorem processLines_no_indexError (dim : Nat) (fileLines : List (List Token)) :
    ∀ inst : WMMInstance, isSquare inst.c dim → isSquare inst.cd dim →
      (∀ line ∈ fileLines, lineOk dim line) →
      (processLines inst fileLines).2 ≠ some PyError.indexError := by
  induction fileLines with
  | nil =>
    intro inst _ _ _
    simp [processLines]
  | cons line rest ih =>
    intro inst hc hcd hok
    have hlineok : lineOk dim line := hok line (by simp)
    have hrest : ∀ l ∈ rest, lineOk dim l := fun l hl => hok l (by simp [hl])
    rcases hlineok with h1 | h3 | ⟨h6, hbound⟩
    · obtain ⟨t, rfl⟩ := List.length_eq_one.mp h1
      unfold processLines
      rw [processLine_sentinel]
      simp
    · obtain ⟨t0, t1, t2, rfl⟩ := List.length_eq_three.mp h3
      unfold processLines
      cases hf : t0.asFloat with
      | none =>
        rw [processLine_header_bad inst t0 t1 t2 hf]
        simp
      | some ep =>
        rw [processLine_header inst t0 t1 t2 ep hf]
        exact ih _ hc hcd hrest
    · obtain ⟨t0, t1, t2, t3, t4, t5, rfl⟩ := length_six_exists line h6
      rcases parseRecord_six_cases t0 t1 t2 t3 t4 t5 with herr |
        ⟨n, m, g, hv, dg, dh, k0, k1, k2, k3, k4, k5, hok6⟩
      · unfold processLines
        rw [processLine_six_err inst t0 t1 t2 t3 t4 t5 _ herr]
        simp
      · unfold processLines
        rw [processLine_coeff inst t0 t1 t2 t3 t4 t5 n m g hv dg dh
            k0 k1 k2 k3 k4 k5]
        by_cases hmn : m ≤ n
        · rw [if_pos hmn]
          have hb := hbound n m (by simp [k0]) (by simp [k1]) hmn
          obtain ⟨inst2, hw, _, _, hcs, hcds, _, _⟩ :=
            writeRecord_spec inst dim n m g hv dg dh hc hcd hb.1 hmn hb.2
          rw [hw]
          exact ih inst2 hcs hcds hrest
        · rw [if_neg hmn]
          exact ih inst hc hcd hrest

/-- C9: when `c` and `cd` are pre-allocated square arrays whose dimension
exceeds every `n` index of the file's coefficient records (with
`0 <= m <= n`), every array access the loader performs is in bounds: the
run never produces an index error. -/
theorem writes_in_bounds (dim : Nat) (inst : WMMInstance)
    (fileLines : List (List Token))
    (hc : isSquare inst.c dim) (hcd : isSquare inst.cd dim)
    (hok : ∀ line ∈ fileLines, lineOk dim line) :
    (read_coefficients inst fileLines).2 ≠ some PyError.indexError :=
  processLines_no_indexError dim fileLines inst hc hcd hok

/-- Witness for C9 on a three-line file (header, record `n=1 m=1`,
sentinel) against a 2-by-2 instance. -/
theorem writes_in_bounds_witness :
    (read_coefficients ⟨0, 0, [[0, 0], [0, 0]], [[0, 0], [0, 0]]⟩
        [[floatTok 2020, strTok, strTok],
         [intTok 1, intTok 1, floatTok 1, floatTok 2, floatTok 3, floatTok 4],
         [strTok]]).2 ≠ some PyError.indexError :=
  writes_in_bounds 2 ⟨0, 0, [[0, 0], [0, 0]], [[0, 0], [0, 0]]⟩
    [[floatTok 2020, strTok, strTok],
     [intTok 1, intTok 1, floatTok 1, floatTok 2, floatTok 3, floatTok 4],
     [strTok]]
    ⟨rfl, by decide⟩ ⟨rfl, by decide⟩
    (by
      intro l hl
      simp only [List.mem_cons, List.not_mem_nil, or_false] at hl
      rcases hl with rfl | rfl | rfl
      · exact Or.inr (Or.inl rfl)
      · refine Or.inr (Or.inr ⟨rfl, ?_⟩)
        intro n m hn hm _
        simp [intTok] at hn hm
        omega
      · exact Or.inl rfl)

/-- C10: the packing convention never collides: for two coefficient records
with distinct `(n, m)` pairs (each with `0 <= m <= n < dim`), the g/dg
writes land at `[m][n]` with row index at most the column index, the h/dh
writes land at `[n][m-1]` with row index strictly greater than the column
index, and the slots of the two records are pairwise distinct, so
processing the second record preserves every value the first one wrote. -/
theorem packing_no_collision (inst : WMMInstance) (dim : Nat)
    (n1 m1 n2 m2 : Int) (g1 h1 dg1 dh1 g2 h2 dg2 dh2 : Rat)
    (hc : isSquare inst.c dim) (hcd : isSquare inst.cd dim)
    (hm10 : 0 ≤ m1) (hm1n : m1 ≤ n1) (hn1 : n1 < (dim : Int))
    (hm20 : 0 ≤ m2) (hm2n : m2 ≤ n2) (hn2 : n2 < (dim : Int))
    (hne : ¬(n1 = n2 ∧ m1 = m2)) :
    m1.toNat ≤ n1.toNat ∧ (m1 ≠ 0 → n1.toNat > (m1 - 1).toNat) ∧
    ∃ i1 i2, writeRecord inst n1 m1 g1 h1 dg1 dh1 = StepResult.next i1 ∧
      writeRecord i1 n2 m2 g2 h2 dg2 dh2 = StepResult.next i2 ∧
      readMat i2.c m1.toNat n1.toNat = some g1 ∧
      readMat i2.cd m1.toNat n1.toNat = some dg1 ∧
      (m1 ≠ 0 → readMat i2.c n1.toNat (m1 - 1).toNat = some h1 ∧
                readMat i2.cd n1.toNat (m1 - 1).toNat = some dh1) := by
  obtain ⟨i1, hw1, _, _, hc1, hcd1, hcr1, hcdr1⟩ :=
    writeRecord_spec inst dim n1 m1 g1 h1 dg1 dh1 hc hcd hm10 hm1n hn1
  obtain ⟨i2, hw2, _, _, _, _, hcr2, hcdr2⟩ :=
    writeRecord_spec i1 dim n2 m2 g2 h2 dg2 dh2 hc1 hcd1 hm20 hm2n hn2
  refine ⟨by omega, fun hm => by omega, i1, i2, hw1, hw2, ?_, ?_, ?_⟩
  · rw [hcr2, hcr1]
    split_ifs <;> first | rfl | (exfalso; omega)
  · rw [hcdr2, hcdr1]
    split_ifs <;> first | rfl | (exfalso; omega)
  · intro hm
    constructor
    · rw [hcr2, hcr1]
      split_ifs <;> first | rfl | (exfalso; omega)
    · rw [hcdr2, hcdr1]
      split_ifs <;> first | rfl | (exfalso; omega)

/-- Witness for C10 with records `(n=1, m=0)` then `(n=1, m=1)` on a
2-by-2 instance. -/
theorem packing_no_collision_witness :
    (0 : Int).toNat ≤ (1 : Int).toNat ∧
    ((0 : Int) ≠ 0 → (1 : Int).toNat > ((0 : Int) - 1).toNat) ∧
    ∃ i1 i2, writeRecord ⟨0, 0, [[0, 0], [0, 0]], [[0, 0], [0, 0]]⟩
        1 0 11 12 13 14 = StepResult.next i1 ∧
      writeRecord i1 1 1 21 22 23 24 = StepResult.next i2 ∧
      readMat i2.c (0 : Int).toNat (1 : Int).toNat = some 11 ∧
      readMat i2.cd (0 : Int).toNat (1 : Int).toNat = some 13 ∧
      ((0 : Int) ≠ 0 →
        readMat i2.c (1 : Int).toNat ((0 : Int) - 1).toNat = some 12 ∧
        readMat i2.cd (1 : Int).toNat ((0 : Int) - 1).toNat = some 14) :=
  packing_no_collision ⟨0, 0, [[0, 0], [0, 0]], [[0, 0], [0, 0]]⟩ 2
    1 0 1 1 11 12 13 14 21 22 23 24
    ⟨rfl, by decide⟩ ⟨rfl, by decide⟩
    (by decide) (by decide) (by decide)
    (by decide) (by decide) (by decide)
    (by decide)
